import Mathlib

/-!
Shallow embedding of the core of the ShadowMesh-Strangler repository:
the CDC consumer (src/consumer/consumer.js) and the traffic-routing
gateway (src/gateway/server.js).

JavaScript numbers are modelled as exact rationals (IEEE-754 rounding is
not modelled; every concrete value appearing in the development is exact
in both semantics).  Timestamps (`synced_at`, `lastUpdate`) carry no
information relevant to any property and are omitted.
-/

namespace ShadowMesh

/-! ## DecimalCodec — `decodeDecimal` in src/consumer/consumer.js

`decodeDecimal(value, scale)` receives a JSON field that is a number,
a string, or null/absent.  We model that input shape directly. -/

/-- A JSON value appearing in the `price` field of a change event:
a number, a string, or null/absent. -/
inductive DecField where
  | num (q : ℚ)
  | str (s : String)
  | null
deriving DecidableEq

/-- Numeric value of a list of decimal digit characters (most significant
first); used to model the mantissa digits consumed by JS `parseFloat`. -/
def digitsVal (cs : List Char) : ℕ :=
  cs.foldl (fun acc c => acc * 10 + (c.toNat - 48)) 0

/-- Model of the exponent part accepted by JS `parseFloat` after the
mantissa: `e`/`E`, an optional sign, then digits; an exponent with no
digits is ignored (contributes 0), as in JS where `parseFloat` backs off
to the longest valid numeric literal. -/
def parseExp (cs : List Char) : ℤ :=
  match cs with
  | 'e' :: rest | 'E' :: rest =>
    match rest with
    | '-' :: r => if (r.takeWhile Char.isDigit) = [] then 0 else -(digitsVal (r.takeWhile Char.isDigit) : ℤ)
    | '+' :: r => if (r.takeWhile Char.isDigit) = [] then 0 else (digitsVal (r.takeWhile Char.isDigit) : ℤ)
    | r => if (r.takeWhile Char.isDigit) = [] then 0 else (digitsVal (r.takeWhile Char.isDigit) : ℤ)
  | _ => 0

/-- The numeric parts of a JS float literal: sign, integer-part value,
fraction-part value, number of fraction digits, exponent. -/
structure FloatParts where
  neg : Bool
  intVal : ℕ
  fracVal : ℕ
  fracLen : ℕ
  exp : ℤ
deriving DecidableEq

/-- The scanning phase of JS `parseFloat`: an optional sign, integer
digits, an optional fraction, and an optional exponent, read as the
longest valid numeric literal at the start of the string; `none` models
NaN (no digit at all). -/
def jsParseFloatParts (s : String) : Option FloatParts :=
  let cs := s.data
  let signAndRest : Bool × List Char :=
    match cs with
    | '-' :: rest => (true, rest)
    | '+' :: rest => (false, rest)
    | _ => (false, cs)
  let cs₁ := signAndRest.2
  let intPart := cs₁.takeWhile Char.isDigit
  let cs₂ := cs₁.dropWhile Char.isDigit
  let fracAndRest : List Char × List Char :=
    match cs₂ with
    | '.' :: r => (r.takeWhile Char.isDigit, r.dropWhile Char.isDigit)
    | _ => ([], cs₂)
  let fracPart := fracAndRest.1
  if intPart = [] ∧ fracPart = [] then none
  else
    some ⟨signAndRest.1, digitsVal intPart, digitsVal fracPart, fracPart.length,
          parseExp fracAndRest.2⟩

/-- Rational value of parsed float parts:
`±(int + frac/10^fracLen)·10^exp`. -/
def floatPartsVal (p : FloatParts) : ℚ :=
  (if p.neg then -1 else 1) * ((p.intVal : ℚ) + (p.fracVal : ℚ) / 10 ^ p.fracLen)
    * (10 : ℚ) ^ p.exp

/-- Model of JS `parseFloat` as an exact rational; `none` models NaN.
Leading whitespace and the literals `Infinity`/`-Infinity` are not
modelled — no input in this development uses them. -/
def jsParseFloat (s : String) : Option ℚ :=
  (jsParseFloatParts s).map floatPartsVal

/-- Value of one base64 alphabet character, `none` for a character outside
the alphabet. -/
def b64Val (c : Char) : Option ℕ :=
  if 'A' ≤ c ∧ c ≤ 'Z' then some (c.toNat - 65)
  else if 'a' ≤ c ∧ c ≤ 'z' then some (c.toNat - 97 + 26)
  else if '0' ≤ c ∧ c ≤ '9' then some (c.toNat - 48 + 52)
  else if c = '+' then some 62
  else if c = '/' then some 63
  else none

/-- Reassemble 6-bit groups into bytes (RFC 4648): 4 sextets give 3 bytes,
a trailing group of 3 gives 2 bytes, of 2 gives 1 byte; a single trailing
sextet is malformed. -/
def sextetsToBytes : List ℕ → Option (List ℕ)
  | [] => some []
  | [_] => none
  | [a, b] => some [a * 4 + b / 16]
  | [a, b, c] => some [a * 4 + b / 16, b % 16 * 16 + c / 4]
  | a :: b :: c :: d :: rest =>
    (sextetsToBytes rest).map
      (fun tl => (a * 4 + b / 16) :: (b % 16 * 16 + c / 4) :: (c % 4 * 64 + d) :: tl)

/-- Model of Node's `Buffer.from(s, 'base64')`: strip trailing `=`
padding, map every remaining character through the base64 alphabet and
reassemble bytes.  Node ignores (rather than rejects) characters outside
the alphabet; that leniency is not exercised by any input in this
development, so out-of-alphabet characters yield `none` here. -/
def base64Decode (s : String) : Option (List ℕ) :=
  let trimmed := ((s.data.reverse.dropWhile (fun c => c = '=')).reverse)
  (trimmed.mapM b64Val).bind sextetsToBytes

/-- The big-endian accumulation loop of `decodeDecimal`:
`bigIntValue = (bigIntValue << 8) + byte` over the buffer. -/
def bytesBE (bs : List ℕ) : ℤ :=
  bs.foldl (fun acc b => acc * 256 + (b : ℤ)) 0

/-- The two's-complement correction of `decodeDecimal`: if the high bit of
the first byte is set, subtract `2^(8·length)`.  An empty buffer has no
high bit (`buffer[0]` is `undefined`, and `undefined & 0x80` is 0). -/
def twosComplement (bs : List ℕ) : ℤ :=
  match bs with
  | [] => bytesBE bs
  | b :: _ => if 128 ≤ b then bytesBE bs - 2 ^ (8 * bs.length) else bytesBE bs

/-- `decodeDecimal(value, scale)` from src/consumer/consumer.js:
falsy input (null, 0, empty string) gives 0; a number is returned as-is;
a string is first parsed with `parseFloat` and, failing that, base64
decoded to a big-endian two's-complement integer divided by `10^scale`;
any failure yields 0 (the surrounding try/catch never propagates). -/
def decodeDecimal (value : DecField) (scale : ℕ) : ℚ :=
  match value with
  | .null => 0
  | .num q => q
  | .str s =>
    if s = "" then 0
    else
      match jsParseFloat s with
      | some q => q
      | none =>
        match base64Decode s with
        | some bs => (twosComplement bs : ℚ) / 10 ^ scale
        | none => 0

/-! ## PricingTransform — `calculateDynamicPrice` in src/consumer/consumer.js -/

/-- Model of JS `Number.prototype.toFixed(2)` on an exact rational:
round to 2 decimal places (ties away from zero in JS; every value rounded
in this development is an exact multiple of 1/100, so the tie rule is
never exercised).  The JS function returns a string; we keep the rounded
numeric value. -/
def toFixed2 (q : ℚ) : ℚ := (round (q * 100) : ℤ) / 100

/-- `calculateDynamicPrice(basePrice, stock)` from src/consumer/consumer.js.
The JS coercions `parseFloat(basePrice) || 0` and `parseInt(stock) || 0`
are identities on the already-numeric model inputs. -/
def calculateDynamicPrice (basePrice : ℚ) (stock : ℤ) : ℚ × ℚ :=
  let demandScore : ℚ :=
    if stock < 10 then 1.3
    else if stock < 25 then 1.15
    else if stock < 50 then 1.05
    else if stock > 200 then 0.9
    else 1.0
  (toFixed2 (basePrice * demandScore), toFixed2 demandScore)

/-- The demand factor as the specification words it (spec §4.4), for the
refinement statement of claim C7: piecewise in the fixed order
stock < 10 → 1.30; stock < 25 → 1.15; stock < 50 → 1.05;
stock > 200 → 0.90; else → 1.00. -/
def demandFactor (stock : ℤ) : ℚ :=
  if stock < 10 then 1.30
  else if stock < 25 then 1.15
  else if stock < 50 then 1.05
  else if stock > 200 then 0.90
  else 1.00

/-! ## ChangeEventProcessor — `processProductMessage` in src/consumer/consumer.js

The replica table `pricing_inventory` (PRIMARY KEY id) is modelled as a
list of rows; the SQL `INSERT ... ON CONFLICT (id) DO UPDATE SET ...`
overwrites every mirrored and derived column of the conflicting row, and
`DELETE FROM pricing_inventory WHERE id = $1` removes the matching rows. -/

/-- A row of the `pricing_inventory` replica table (`synced_at` omitted —
it is a timestamp carrying no information used by any property). -/
structure ProductRow where
  id : ℤ
  name : String
  description : String
  price : ℚ
  stock : ℤ
  image_url : Option String
  category : Option String
  dynamic_price : ℚ
  demand_score : ℚ
deriving DecidableEq

/-- The row snapshot carried in a change event's `before`/`after` field,
after JSON parsing: `id` is the integer the JS `parseInt(after.id)`
yields, optional fields model JS null/undefined, and `price` is the raw
`DecField` still to be decoded. -/
structure Snapshot where
  id : ℤ
  name : Option String
  description : Option String
  price : DecField
  stock : Option ℤ
  image_url : Option String
  category : Option String
deriving DecidableEq

/-- The Debezium payload of one change-event message:
`{op, before, after}`. -/
structure Payload where
  op : String
  before : Option Snapshot
  after : Option Snapshot
deriving DecidableEq

/-- Field extraction of the upsert branch of `processProductMessage`:
`name`/`description` default to `''`, `price` is decoded with
`decodeDecimal(after.price, 2)`, `stock` defaults to 0, and the derived
columns come from `calculateDynamicPrice(price, stock)`. -/
def rowOfSnapshot (a : Snapshot) : ProductRow :=
  let price := decodeDecimal a.price 2
  let stock := a.stock.getD 0
  let dyn := calculateDynamicPrice price stock
  { id := a.id
    name := a.name.getD ""
    description := a.description.getD ""
    price := price
    stock := stock
    image_url := a.image_url
    category := a.category
    dynamic_price := dyn.1
    demand_score := dyn.2 }

/-- `INSERT INTO pricing_inventory ... ON CONFLICT (id) DO UPDATE SET ...`:
if a row with the same id exists it is overwritten in place (every
mirrored and derived column), otherwise the new row is inserted. -/
def upsertProduct (t : List ProductRow) (row : ProductRow) : List ProductRow :=
  if t.any (fun x => x.id = row.id) then
    t.map (fun x => if x.id = row.id then row else x)
  else t ++ [row]

/-- `DELETE FROM pricing_inventory WHERE id = $1`. -/
def deleteProduct (t : List ProductRow) (pid : ℤ) : List ProductRow :=
  t.filter (fun x => x.id ≠ pid)

/-- `processProductMessage` from src/consumer/consumer.js, as a function
from the parsed payload and the current replica table to the new table.
`none` covers both a JSON parse failure (caught and logged) and a missing
payload: each leaves the table unchanged.  Mirroring the JS control flow:
`(op = 'c' | 'u' | 'r') && after` performs the upsert,
`op = 'd' && before` performs the delete, anything else is a no-op. -/
def processProductMessage (msg : Option Payload) (t : List ProductRow) : List ProductRow :=
  match msg with
  | none => t
  | some p =>
    if p.op = "c" ∨ p.op = "u" ∨ p.op = "r" then
      match p.after with
      | some a => upsertProduct t (rowOfSnapshot a)
      | none => t
    else if p.op = "d" then
      match p.before with
      | some b => deleteProduct t b.id
      | none => t
    else t

/-! ## TrafficRouter — src/gateway/server.js

The gateway's shared mutable state is the integer `trafficWeight` and the
`stats` counters.  Each read handler draws `random = Math.random() * 100`
(a uniform value in `[0,100)`), chooses the monolith when
`random >= trafficWeight`, bumps the counters, and forwards.  Backends
are modelled by whether their fetch succeeds (`mu`/`su` for monolith and
microservice): the failure the handlers catch is a thrown fetch
(transport-level); a non-2xx response is forwarded, not caught. -/

/-- The two backends, named as in the `X-Source` header values. -/
inductive Source where
  | MONOLITH
  | MICROSERVICE
deriving DecidableEq

/-- The gateway's `stats` object (`lastUpdate` timestamp omitted). -/
structure Stats where
  totalRequests : ℕ
  monolithRequests : ℕ
  microserviceRequests : ℕ
deriving DecidableEq

/-- Observable response of one weight-routed read: the `X-Source` header
(absent on a 503), whether `X-Fallback: true` was set, and whether the
handler answered 503 Service Unavailable. -/
structure RouteResponse where
  xSource : Option Source
  xFallback : Bool
  unavailable : Bool
deriving DecidableEq

/-- The routing draw shared by the three read handlers:
`useMonolith = random >= trafficWeight`. -/
def chooseBackend (trafficWeight : ℤ) (random : ℚ) : Source :=
  if (trafficWeight : ℚ) ≤ random then .MONOLITH else .MICROSERVICE

/-- The backend the fallback branch of `GET /api/products` targets. -/
def otherBackend : Source → Source
  | .MONOLITH => .MICROSERVICE
  | .MICROSERVICE => .MONOLITH

/-- Whether a backend's fetch succeeds, given the monolith's and the
microservice's availability. -/
def backendUp (mu su : Bool) : Source → Bool
  | .MONOLITH => mu
  | .MICROSERVICE => su

/-- The per-request stats increments done at initial-routing time:
`totalRequests++` and then `monolithRequests++` or
`microserviceRequests++` according to the chosen backend. -/
def bumpStats (s : Stats) : Source → Stats
  | .MONOLITH =>
    { s with totalRequests := s.totalRequests + 1
             monolithRequests := s.monolithRequests + 1 }
  | .MICROSERVICE =>
    { s with totalRequests := s.totalRequests + 1
             microserviceRequests := s.microserviceRequests + 1 }

/-- The `GET /api/products` handler: route by weight, bump stats, forward;
on a thrown fetch retry the *other* backend once and set `X-Fallback`;
503 when both throw.  The fallback branch performs no stats update. -/
def getProducts (w : ℤ) (r : ℚ) (mu su : Bool) (s : Stats) : Stats × RouteResponse :=
  let src := chooseBackend w r
  let s₁ := bumpStats s src
  if backendUp mu su src then (s₁, ⟨some src, false, false⟩)
  else if backendUp mu su (otherBackend src) then
    (s₁, ⟨some (otherBackend src), true, false⟩)
  else (s₁, ⟨none, false, true⟩)

/-- The `GET /api/products/:id` handler: route by weight, bump stats,
forward; on a thrown fetch answer 503 directly — it has no fallback
branch. -/
def getProductById (w : ℤ) (r : ℚ) (mu su : Bool) (s : Stats) : Stats × RouteResponse :=
  let src := chooseBackend w r
  let s₁ := bumpStats s src
  if backendUp mu su src then (s₁, ⟨some src, false, false⟩)
  else (s₁, ⟨none, false, true⟩)

/-- The `GET /api/products/:id/reviews` handler: route by weight, bump
stats, forward; on a thrown fetch retry against the MONOLITH regardless
of the initial target, setting `X-Source: MONOLITH` but no `X-Fallback`
header; 503 when that retry also throws. -/
def getProductReviews (w : ℤ) (r : ℚ) (mu su : Bool) (s : Stats) : Stats × RouteResponse :=
  let src := chooseBackend w r
  let s₁ := bumpStats s src
  if backendUp mu su src then (s₁, ⟨some src, false, false⟩)
  else if mu then (s₁, ⟨some .MONOLITH, false, false⟩)
  else (s₁, ⟨none, false, true⟩)

/-- Fold a sequence of `GET /api/products` requests (one routing draw per
request) over the stats, with fixed backend availability. -/
def runGetProducts (w : ℤ) (mu su : Bool) (draws : List ℚ) (s : Stats) : Stats :=
  draws.foldl (fun st r => (getProducts w r mu su st).1) s

/-- JS `parseInt` applied to a number: truncation toward zero of its
decimal representation.  (For magnitudes below 1e-6 JS stringifies in
exponential notation and `parseInt` reads only the mantissa; no value in
this development is in that range.) -/
def jsTrunc (q : ℚ) : ℤ := if q < 0 then ⌈q⌉ else ⌊q⌋

/-- The `POST /admin/weight` handler: the request body's `weight` field is
modelled as `none` (absent) or a JSON number.  Validation rejects an
absent field and `weight < 0 || weight > 100`, leaving the stored weight
unchanged; otherwise the stored weight becomes `parseInt(weight)`.
Returns (success, new stored weight). -/
def setWeight (body : Option ℚ) (cur : ℤ) : Bool × ℤ :=
  match body with
  | none => (false, cur)
  | some wq => if wq < 0 ∨ 100 < wq then (false, cur) else (true, jsTrunc wq)

/-! ## ConnectorRegistrar and startup — `registerConnectors` and `main`
in src/consumer/consumer.js -/

/-- Outcome of one registration attempt against the connector control
API: an HTTP response with a status, or a thrown fetch (network error). -/
inductive RegOutcome where
  | response (status : ℕ)
  | networkError
deriving DecidableEq

/-- The success test of `registerConnectors`:
`response.ok || response.status === 409` (`ok` is status 200–299). -/
def isRegSuccess : RegOutcome → Bool
  | .response st => (200 ≤ st && st < 300) || st = 409
  | .networkError => false

/-- The bounded retry loop of `registerConnectors`, over the stream of
attempt outcomes: attempt `i`, return success immediately on a created /
already-exists response, otherwise wait the fixed delay and try again
while fuel remains.  Returns (result, number of attempts made). -/
def registerFrom (resp : ℕ → RegOutcome) : ℕ → ℕ → Bool × ℕ
  | i, 0 => (false, i)
  | i, fuel + 1 =>
    if isRegSuccess (resp i) then (true, i + 1)
    else registerFrom resp (i + 1) fuel

/-- `registerConnectors` with its `maxRetries = 30`. -/
def registerConnectors (resp : ℕ → RegOutcome) : Bool × ℕ :=
  registerFrom resp 0 30

/-- Observable result of the consumer's `main` startup sequence. -/
structure StartupResult where
  exited : Bool
  consumerConnected : Bool
  subscribed : Bool
deriving DecidableEq

/-- The `main` function's startup sequence: a failed database probe exits
the process; otherwise `registerConnectors()` is awaited — its result is
not inspected — and the consumer connects and subscribes regardless. -/
def mainStartup (dbOk : Bool) (resp : ℕ → RegOutcome) : StartupResult :=
  if !dbOk then ⟨true, false, false⟩
  else
    let _reg := registerConnectors resp
    ⟨false, true, true⟩

/-- The 1000-request draw sequence of the end-to-end scenario: 700 draws
of 50 (≥ 30, routed to the monolith) and 300 draws of 0 (< 30, routed to
the microservice). -/
def scenarioDraws : List ℚ :=
  List.replicate 700 (50 : ℚ) ++ List.replicate 300 (0 : ℚ)

/-- The decoded value of a base64 payload as the specification words it
(spec §4.3, claim C6): accumulate an arbitrary-precision integer from the
bytes most-significant first, subtract `2^(8×byteLength)` when the
highest bit of the first byte is set, and divide by `10^scale`. -/
def specBase64Value (bs : List ℕ) (scale : ℕ) : ℚ :=
  let acc : ℤ := bs.foldl (fun a b => a * 256 + (b : ℤ)) 0
  let signed : ℤ := if 128 ≤ bs.headD 0 then acc - 2 ^ (8 * bs.length) else acc
  (signed : ℚ) / 10 ^ scale

/-! ## Helper lemmas -/

/-- `toFixed2` of a value that is an exact multiple of 1/100. -/
lemma toFixed2_eq_of_mul_hundred (q : ℚ) (n : ℤ) (h : q * 100 = (n : ℚ)) :
    toFixed2 q = (n : ℚ) / 100 := by
  rw [toFixed2, h, round_intCast]

/-! ## Claim C4 — the routing draw -/

/-- C4: for every weight `w ∈ [0,100]` and draw `r ∈ [0,100)`, the router
targets the legacy (monolith) backend iff `r ≥ w` and the replica
(microservice) backend iff `r < w`; with `w = 0` every read targets the
legacy backend and with `w = 100` every read targets the replica. -/
theorem routing_draw_semantics (w : ℤ) (r : ℚ) (hw0 : 0 ≤ w) (hw1 : w ≤ 100)
    (hr0 : 0 ≤ r) (hr1 : r < 100) :
    (chooseBackend w r = Source.MONOLITH ↔ (w : ℚ) ≤ r)
    ∧ (chooseBackend w r = Source.MICROSERVICE ↔ r < (w : ℚ))
    ∧ (w = 0 → chooseBackend w r = Source.MONOLITH)
    ∧ (w = 100 → chooseBackend w r = Source.MICROSERVICE) := by
  unfold chooseBackend
  by_cases h : (w : ℚ) ≤ r
  · rw [if_pos h]
    exact ⟨⟨fun _ => h, fun _ => rfl⟩,
           ⟨fun hne => Source.noConfusion hne, fun hlt => absurd h (not_le.mpr hlt)⟩,
           fun _ => rfl,
           fun hw => absurd h (by subst hw; push_cast; exact not_le.mpr hr1)⟩
  · rw [if_neg h]
    have hlt := lt_of_not_le h
    exact ⟨⟨fun hne => Source.noConfusion hne, fun hle => absurd hle h⟩,
           ⟨fun _ => hlt, fun _ => rfl⟩,
           fun hw => absurd hlt (by subst hw; push_cast; exact not_lt.mpr hr0),
           fun _ => rfl⟩

/-- Witness for C4 at `w = 0`, `r = 50`. -/
theorem routing_draw_semantics_witness :
    (0 : ℤ) ≤ 0 ∧ (0 : ℤ) ≤ 100 ∧ (0 : ℚ) ≤ 50 ∧ (50 : ℚ) < 100
    ∧ chooseBackend 0 50 = Source.MONOLITH :=
  ⟨le_refl 0, by norm_num, by norm_num, by norm_num,
    (routing_draw_semantics 0 50 (le_refl 0) (by norm_num) (by norm_num)
      (by norm_num)).2.2.1 rfl⟩

/-! ## Claim C7 — the pricing transform -/

/-- C7: `calculateDynamicPrice` refines the spec's `computeDynamicPrice`:
it returns `price × demandFactor(stock)` and `demandFactor(stock)`, each
rounded to 2 decimal places, where `demandFactor` is the spec's ordered
piecewise function; in particular `(10.00, 5) ↦ (13.00, 1.30)`,
`(10.00, 300) ↦ (9.00, 0.90)` and `(10.00, 100) ↦ (10.00, 1.00)`. -/
theorem calculateDynamicPrice_refines_demandFactor :
    (∀ (price : ℚ) (stock : ℤ),
        calculateDynamicPrice price stock
          = (toFixed2 (price * demandFactor stock), toFixed2 (demandFactor stock)))
    ∧ calculateDynamicPrice 10.00 5 = (13.00, 1.30)
    ∧ calculateDynamicPrice 10.00 300 = (9.00, 0.90)
    ∧ calculateDynamicPrice 10.00 100 = (10.00, 1.00) := by
  have heval : ∀ (price : ℚ) (stock : ℤ),
      calculateDynamicPrice price stock
        = (toFixed2 (price * demandFactor stock), toFixed2 (demandFactor stock)) := by
    intro price stock
    unfold calculateDynamicPrice demandFactor
    split_ifs <;> norm_num
  refine ⟨heval, ?_, ?_, ?_⟩
  · rw [heval]
    unfold demandFactor
    norm_num
    constructor
    · rw [toFixed2_eq_of_mul_hundred _ 1300 (by norm_num)]; norm_num
    · rw [toFixed2_eq_of_mul_hundred _ 130 (by norm_num)]; norm_num
  · rw [heval]
    unfold demandFactor
    norm_num
    constructor
    · rw [toFixed2_eq_of_mul_hundred _ 900 (by norm_num)]; norm_num
    · rw [toFixed2_eq_of_mul_hundred _ 90 (by norm_num)]; norm_num
  · rw [heval]
    unfold demandFactor
    norm_num
    constructor
    · rw [toFixed2_eq_of_mul_hundred _ 1000 (by norm_num)]; norm_num
    · rw [toFixed2_eq_of_mul_hundred _ 100 (by norm_num)]; norm_num

/-! ## Claim C8 — bounded connector registration -/

lemma registerFrom_attempts_le (resp : ℕ → RegOutcome) (fuel i : ℕ) :
    (registerFrom resp i fuel).2 ≤ i + fuel := by
  induction fuel generalizing i with
  | zero => simp [registerFrom]
  | succ fuel ih =>
    rw [registerFrom]
    split_ifs
    · omega
    · have := ih (i + 1)
      omega

lemma registerFrom_true_iff (resp : ℕ → RegOutcome) (fuel i : ℕ) :
    (registerFrom resp i fuel).1 = true
      ↔ ∃ j, i ≤ j ∧ j < i + fuel ∧ isRegSuccess (resp j) = true := by
  induction fuel generalizing i with
  | zero =>
    simp only [registerFrom]
    constructor
    · intro h; cases h
    · rintro ⟨j, h₁, h₂, _⟩; omega
  | succ fuel ih =>
    rw [registerFrom]
    split_ifs with h
    · simp only [true_iff]
      exact ⟨i, le_refl i, by omega, h⟩
    · rw [ih (i + 1)]
      constructor
      · rintro ⟨j, h₁, h₂, h₃⟩
        exact ⟨j, by omega, by omega, h₃⟩
      · rintro ⟨j, h₁, h₂, h₃⟩
        refine ⟨j, ?_, by omega, h₃⟩
        rcases Nat.eq_or_lt_of_le h₁ with heq | hlt
        · subst heq; rw [h₃] at h; cases h rfl
        · omega

lemma registerFrom_all_fail (resp : ℕ → RegOutcome) (fuel i : ℕ)
    (h : ∀ j, i ≤ j → j < i + fuel → isRegSuccess (resp j) = false) :
    registerFrom resp i fuel = (false, i + fuel) := by
  induction fuel generalizing i with
  | zero => simp [registerFrom]
  | succ fuel ih =>
    rw [registerFrom]
    rw [if_neg (by simp [h i (le_refl i) (by omega)])]
    rw [ih (i + 1) (fun j hj₁ hj₂ => h j (by omega) (by omega))]
    have harith : i + 1 + fuel = i + (fuel + 1) := by omega
    rw [harith]

lemma registerFrom_first_success (resp : ℕ → RegOutcome) (fuel i j : ℕ)
    (hij : i ≤ j) (hj : j < i + fuel)
    (hsucc : isRegSuccess (resp j) = true)
    (hbefore : ∀ k, i ≤ k → k < j → isRegSuccess (resp k) = false) :
    registerFrom resp i fuel = (true, j + 1) := by
  induction fuel generalizing i with
  | zero => omega
  | succ fuel ih =>
    rw [registerFrom]
    rcases Nat.eq_or_lt_of_le hij with heq | hlt
    · subst heq; rw [if_pos hsucc]
    · rw [if_neg (by simp [hbefore i (le_refl i) hlt])]
      exact ih (i + 1) (by omega) (by omega)
        (fun k hk₁ hk₂ => hbefore k (by omega) hk₂)

/-- C8: connector registration treats a 2xx ("created") and a 409
("already exists") response as success and stops at the first such
response; on any other outcome it retries after the fixed delay, making
at most 30 attempts; exhausting all 30 reports failure without raising;
and the `main` startup still connects and subscribes the consumer
afterwards regardless of the registration result. -/
theorem registerConnectors_bounded_retry (resp : ℕ → RegOutcome) :
    (registerConnectors resp).2 ≤ 30
    ∧ ((registerConnectors resp).1 = true
        ↔ ∃ i, i < 30 ∧ isRegSuccess (resp i) = true)
    ∧ ((∀ i, i < 30 → isRegSuccess (resp i) = false)
        → registerConnectors resp = (false, 30))
    ∧ (∀ i, i < 30 → isRegSuccess (resp i) = true
        → (∀ j, j < i → isRegSuccess (resp j) = false)
        → registerConnectors resp = (true, i + 1))
    ∧ mainStartup true resp = ⟨false, true, true⟩ := by
  refine ⟨?_, ?_, ?_, ?_, rfl⟩
  · simpa using registerFrom_attempts_le resp 30 0
  · rw [registerConnectors, registerFrom_true_iff]
    constructor
    · rintro ⟨j, _, h₂, h₃⟩; exact ⟨j, by omega, h₃⟩
    · rintro ⟨j, h₁, h₂⟩; exact ⟨j, by omega, by omega, h₂⟩
  · intro h
    rw [registerConnectors, registerFrom_all_fail resp 30 0 (fun j _ hj => h j (by omega))]
  · intro i hi hsucc hbefore
    rw [registerConnectors,
        registerFrom_first_success resp 30 0 i (by omega) (by omega) hsucc
          (fun k _ hk => hbefore k hk)]

/-- Witness for C8: a control API that never answers exhausts all 30
attempts, reports failure, and the pipeline nevertheless subscribes. -/
theorem registerConnectors_bounded_retry_witness :
    registerConnectors (fun _ => RegOutcome.networkError) = (false, 30)
    ∧ (mainStartup true (fun _ => RegOutcome.networkError)).subscribed = true := by
  have h := registerConnectors_bounded_retry (fun _ => RegOutcome.networkError)
  refine ⟨h.2.2.1 (fun i _ => rfl), ?_⟩
  rw [h.2.2.2.2]

/-! ## Claim C1 — setWeight validation -/

/-- C1 (amended): `setWeight` fails, leaving the stored weight unchanged,
iff the body's weight field is absent or the number is below 0 or above
100; every accepted number is stored truncated by `parseInt`, so every
integer `w ∈ [0,100]` is stored exactly; `setWeight(-1)` and
`setWeight(101)` both fail and leave the prior weight unchanged. -/
theorem setWeight_range_validation (body : Option ℚ) (cur : ℤ) :
    ((setWeight body cur).1 = false
      ↔ body = none ∨ ∃ q, body = some q ∧ (q < 0 ∨ 100 < q))
    ∧ ((setWeight body cur).1 = false → (setWeight body cur).2 = cur)
    ∧ (∀ n : ℤ, 0 ≤ n → n ≤ 100 → setWeight (some (n : ℚ)) cur = (true, n))
    ∧ setWeight (some (-1)) cur = (false, cur)
    ∧ setWeight (some 101) cur = (false, cur) := by
  refine ⟨?_, ?_, ?_, ?_, ?_⟩
  · cases body with
    | none => simp [setWeight]
    | some q =>
      rw [setWeight]
      split_ifs with h
      · simp only [true_iff]
        exact Or.inr ⟨q, rfl, h⟩
      · simp only [false_iff, not_or]
        refine ⟨by simp, ?_⟩
        rintro ⟨q', hq', hrange⟩
        rw [Option.some.injEq] at hq'
        subst hq'
        exact h hrange
  · cases body with
    | none => intro; rfl
    | some q =>
      rw [setWeight]
      split_ifs
      · intro; rfl
      · intro hfalse; cases hfalse
  · intro n hn0 hn100
    have hq0 : (0 : ℚ) ≤ (n : ℚ) := by exact_mod_cast hn0
    have hq100 : (n : ℚ) ≤ 100 := by exact_mod_cast hn100
    rw [setWeight, if_neg (by push_neg; exact ⟨hq0, hq100⟩), jsTrunc,
        if_neg (not_lt.mpr hq0), Int.floor_intCast]
  · rw [setWeight, if_pos (by norm_num)]
  · rw [setWeight, if_pos (by norm_num)]

/-- Witness for C1 at `w = -1` (fails, weight 7 unchanged) and
`w = 42` (succeeds, stored exactly). -/
theorem setWeight_range_validation_witness :
    setWeight (some (-1)) 7 = (false, 7)
    ∧ setWeight (some ((42 : ℤ) : ℚ)) 7 = (true, 42) := by
  have h := setWeight_range_validation (some (-1)) 7
  have h' := setWeight_range_validation (some ((42 : ℤ) : ℚ)) 7
  exact ⟨h.2.2.2.1, h'.2.2.1 42 (by norm_num) (by norm_num)⟩

/-- Counterexample to C1 as stated: 50.5 is not an integer yet lies in
[0,100]; the handler accepts it (no validation error) and replaces the
stored weight with `parseInt(50.5) = 50`, so "fails iff `w` is not an
integer in [0,100]" is false on the code. -/
theorem setWeight_accepts_noninteger :
    (0 : ℚ) ≤ 101 / 2 ∧ (101 / 2 : ℚ) ≤ 100
    ∧ ¬(∃ n : ℤ, (101 / 2 : ℚ) = (n : ℚ))
    ∧ setWeight (some (101 / 2)) 7 = (true, 50) := by
  refine ⟨by norm_num, by norm_num, ?_, ?_⟩
  · rintro ⟨n, hn⟩
    have h2 : (101 : ℚ) = (n : ℚ) * 2 := by
      rw [← hn]; norm_num
    have h3 : (101 : ℤ) = n * 2 := by exact_mod_cast h2
    omega
  · rw [setWeight, if_neg (by norm_num), jsTrunc, if_neg (by norm_num)]
    have : ⌊(101 / 2 : ℚ)⌋ = 50 := by
      rw [Int.floor_eq_iff]; norm_num
    rw [this]

/-! ## Claim C3 — per-handler failure behavior -/

/-- Counterexample to C3 as stated: with weight 0 and draw 50 the
`GET /api/products/:id` handler picks the monolith; when the monolith's
fetch throws while the microservice is available, the handler answers
503 with no retry and no fallback tag, although the claim requires a
retry against the other backend and 503 only when both fail. -/
theorem getProductById_no_fallback :
    chooseBackend 0 50 = Source.MONOLITH
    ∧ backendUp false true (otherBackend (chooseBackend 0 50)) = true
    ∧ (getProductById 0 50 false true ⟨0, 0, 0⟩).2
        = ⟨none, false, true⟩ := by
  have hchoose : chooseBackend 0 50 = Source.MONOLITH := by
    rw [chooseBackend, if_pos (by norm_num)]
  refine ⟨hchoose, by rw [hchoose]; rfl, ?_⟩
  rw [getProductById, hchoose]
  rfl

/-- C3 (amended): of the three weight-routed reads only
`GET /api/products` retries the *other* backend and tags the response
with `X-Fallback`; `GET /api/products/:id` answers 503 on the first
transport failure with no retry; `GET /api/products/:id/reviews` retries
the monolith regardless of the initial target and sets no fallback tag,
so it answers 503 whenever the monolith is down and the initial fetch
failed.  When the initial fetch succeeds all three serve it tagged with
its source, and `GET /api/products` answers 503 only when both backends
fail. -/
theorem weight_routed_read_failure_behavior (w : ℤ) (r : ℚ) (mu su : Bool)
    (s : Stats) :
    (backendUp mu su (chooseBackend w r) = false →
      backendUp mu su (otherBackend (chooseBackend w r)) = true →
      (getProducts w r mu su s).2
        = ⟨some (otherBackend (chooseBackend w r)), true, false⟩)
    ∧ (backendUp mu su (chooseBackend w r) = false →
        backendUp mu su (otherBackend (chooseBackend w r)) = false →
        (getProducts w r mu su s).2 = ⟨none, false, true⟩)
    ∧ (backendUp mu su (chooseBackend w r) = false →
        (getProductById w r mu su s).2 = ⟨none, false, true⟩)
    ∧ (backendUp mu su (chooseBackend w r) = false → mu = true →
        (getProductReviews w r mu su s).2
          = ⟨some Source.MONOLITH, false, false⟩)
    ∧ (backendUp mu su (chooseBackend w r) = false → mu = false →
        (getProductReviews w r mu su s).2 = ⟨none, false, true⟩)
    ∧ (backendUp mu su (chooseBackend w r) = true →
        (getProducts w r mu su s).2 = ⟨some (chooseBackend w r), false, false⟩
        ∧ (getProductById w r mu su s).2
            = ⟨some (chooseBackend w r), false, false⟩
        ∧ (getProductReviews w r mu su s).2
            = ⟨some (chooseBackend w r), false, false⟩) := by
  refine ⟨?_, ?_, ?_, ?_, ?_, ?_⟩
  · intro h₁ h₂
    rw [getProducts]
    simp only [h₁, h₂, Bool.false_eq_true, if_false, if_true]
  · intro h₁ h₂
    rw [getProducts]
    simp only [h₁, h₂, Bool.false_eq_true, if_false]
  · intro h₁
    rw [getProductById]
    simp only [h₁, Bool.false_eq_true, if_false]
  · intro h₁ h₂
    subst h₂
    rw [getProductReviews]
    simp [h₁]
  · intro h₁ h₂
    subst h₂
    rw [getProductReviews]
    simp [h₁]
  · intro h₁
    rw [getProducts, getProductById, getProductReviews]
    simp [h₁]

/-- Witness for C3 (amended) at weight 0, draw 50, monolith down,
microservice up: `GET /api/products` serves the microservice tagged as
fallback while `GET /api/products/:id` answers 503. -/
theorem weight_routed_read_failure_behavior_witness :
    (getProducts 0 50 false true ⟨0, 0, 0⟩).2
        = ⟨some Source.MICROSERVICE, true, false⟩
    ∧ (getProductById 0 50 false true ⟨0, 0, 0⟩).2 = ⟨none, false, true⟩ := by
  have hchoose : chooseBackend 0 50 = Source.MONOLITH := by
    rw [chooseBackend, if_pos (by norm_num)]
  have h := weight_routed_read_failure_behavior 0 50 false true ⟨0, 0, 0⟩
  constructor
  · have := h.1 (by rw [hchoose]; rfl) (by rw [hchoose]; rfl)
    rw [hchoose] at this
    exact this
  · exact h.2.2.1 (by rw [hchoose]; rfl)

/-! ## Claim C2 — stats counters and the weight-30 fallback scenario -/

lemma bumpStats_monolith (s : Stats) :
    bumpStats s Source.MONOLITH
      = { s with totalRequests := s.totalRequests + 1,
                 monolithRequests := s.monolithRequests + 1 } := rfl

lemma bumpStats_microservice (s : Stats) :
    bumpStats s Source.MICROSERVICE
      = { s with totalRequests := s.totalRequests + 1,
                 microserviceRequests := s.microserviceRequests + 1 } := rfl

lemma getProducts_stats (w : ℤ) (r : ℚ) (mu su : Bool) (s : Stats) :
    (getProducts w r mu su s).1 = bumpStats s (chooseBackend w r) := by
  rw [getProducts]
  split_ifs <;> rfl

lemma countP_replicate {α : Type} (p : α → Bool) (n : ℕ) (a : α) :
    (List.replicate n a).countP p = if p a then n else 0 := by
  induction n with
  | zero => simp
  | succ n ih =>
    rw [List.replicate_succ, List.countP_cons]
    split_ifs with h <;> simp [h, ih]

lemma runGetProducts_closed (w : ℤ) (mu su : Bool) (draws : List ℚ) (s : Stats) :
    runGetProducts w mu su draws s =
      ⟨s.totalRequests + draws.length,
       s.monolithRequests + draws.countP (fun r => decide ((w : ℚ) ≤ r)),
       s.microserviceRequests + draws.countP (fun r => decide (r < (w : ℚ)))⟩ := by
  induction draws generalizing s with
  | nil => simp [runGetProducts]
  | cons r rest ih =>
    rw [runGetProducts, List.foldl_cons, ← runGetProducts, ih,
        getProducts_stats, chooseBackend]
    by_cases h : (w : ℚ) ≤ r
    · have hcount1 : List.countP (fun x => decide ((w : ℚ) ≤ x)) (r :: rest)
          = List.countP (fun x => decide ((w : ℚ) ≤ x)) rest + 1 := by
        rw [List.countP_cons]; simp [h]
      have hcount2 : List.countP (fun x => decide (x < (w : ℚ))) (r :: rest)
          = List.countP (fun x => decide (x < (w : ℚ))) rest := by
        rw [List.countP_cons]; simp [not_lt.mpr h]
      rw [if_pos h, hcount1, hcount2, bumpStats_monolith]
      simp only [List.length_cons, Stats.mk.injEq]
      exact ⟨by omega, by omega, trivial⟩
    · have hcount1 : List.countP (fun x => decide ((w : ℚ) ≤ x)) (r :: rest)
          = List.countP (fun x => decide ((w : ℚ) ≤ x)) rest := by
        rw [List.countP_cons]; simp [h]
      have hcount2 : List.countP (fun x => decide (x < (w : ℚ))) (r :: rest)
          = List.countP (fun x => decide (x < (w : ℚ))) rest + 1 := by
        rw [List.countP_cons]; simp [lt_of_not_le h]
      rw [if_neg h, hcount1, hcount2, bumpStats_microservice]
      simp only [List.length_cons, Stats.mk.injEq]
      exact ⟨by omega, trivial, by omega⟩

/-- Counterexample to C2 as stated: in the scenario — weight 30, 1000
`GET /api/products` requests of which exactly 300 draw below 30, the
monolith always reachable, the microservice failing every request — the
final counters are `toLegacy = 700` and `toReplica = 300`: the fallback
branch performs no counter update, so `toLegacy` does not reach the
claimed 1000. -/
theorem fallback_scenario_toLegacy_700 :
    runGetProducts 30 true false scenarioDraws ⟨0, 0, 0⟩ = ⟨1000, 700, 300⟩
    ∧ (runGetProducts 30 true false scenarioDraws ⟨0, 0, 0⟩).monolithRequests
        ≠ 1000 := by
  have h : runGetProducts 30 true false scenarioDraws ⟨0, 0, 0⟩
      = ⟨1000, 700, 300⟩ := by
    rw [runGetProducts_closed, scenarioDraws]
    rw [List.countP_append, List.countP_append, List.length_append,
        countP_replicate, countP_replicate, countP_replicate, countP_replicate]
    norm_num
  exact ⟨h, by rw [h]; exact Nat.ne_of_lt (by norm_num)⟩

/-- C2 (amended): every routed read increments `total` and exactly one of
{toLegacy, toReplica}, chosen at initial-routing time; the fallback
branch updates no counter (the stats are independent of backend
availability), so the end-to-end scenario — weight 30, 1000 requests of
which 300 draw below 30, monolith up, microservice failing every
request — ends with `toLegacy = 700` and `toReplica = 300`. -/
theorem stats_initial_routing_semantics :
    (∀ (w : ℤ) (r : ℚ) (mu su : Bool) (s : Stats),
        (getProducts w r mu su s).1 =
          if (w : ℚ) ≤ r then
            { s with totalRequests := s.totalRequests + 1,
                     monolithRequests := s.monolithRequests + 1 }
          else
            { s with totalRequests := s.totalRequests + 1,
                     microserviceRequests := s.microserviceRequests + 1 })
    ∧ (∀ (w : ℤ) (r : ℚ) (mu su mu' su' : Bool) (s : Stats),
        (getProducts w r mu su s).1 = (getProducts w r mu' su' s).1)
    ∧ runGetProducts 30 true false scenarioDraws ⟨0, 0, 0⟩
        = ⟨1000, 700, 300⟩ := by
  have hstep : ∀ (w : ℤ) (r : ℚ) (mu su : Bool) (s : Stats),
      (getProducts w r mu su s).1 =
        if (w : ℚ) ≤ r then
          { s with totalRequests := s.totalRequests + 1,
                   monolithRequests := s.monolithRequests + 1 }
        else
          { s with totalRequests := s.totalRequests + 1,
                   microserviceRequests := s.microserviceRequests + 1 } := by
    intro w r mu su s
    rw [getProducts_stats, chooseBackend]
    split_ifs <;> rfl
  refine ⟨hstep, fun w r mu su mu' su' s => by rw [hstep, hstep], ?_⟩
  rw [runGetProducts_closed, scenarioDraws]
  rw [List.countP_append, List.countP_append, List.length_append,
      countP_replicate, countP_replicate, countP_replicate, countP_replicate]
  norm_num

/-! ## Claims C5 and C9 — upsert and delete discipline -/

lemma rowOfSnapshot_id (a : Snapshot) : (rowOfSnapshot a).id = a.id := rfl

lemma upsertProduct_idem (t : List ProductRow) (row : ProductRow) :
    upsertProduct (upsertProduct t row) row = upsertProduct t row := by
  by_cases h : (t.any fun x => decide (x.id = row.id)) = true
  · have hinner : upsertProduct t row
        = t.map (fun x => if x.id = row.id then row else x) := by
      rw [upsertProduct, if_pos h]
    rw [hinner, upsertProduct, if_pos ?hany]
    case hany =>
      rw [List.any_eq_true] at h ⊢
      obtain ⟨x, hx, hxid⟩ := h
      simp only [decide_eq_true_eq] at hxid
      refine ⟨row, List.mem_map.mpr ⟨x, hx, by rw [if_pos hxid]⟩, by simp⟩
    rw [List.map_map]
    refine List.map_congr_left (fun x _ => ?_)
    by_cases hx : x.id = row.id
    · simp [hx]
    · simp [Function.comp_apply, if_neg hx]
  · have hinner : upsertProduct t row = t ++ [row] := by
      rw [upsertProduct, if_neg h]
    rw [hinner, upsertProduct, if_pos ?hany]
    case hany =>
      rw [List.any_eq_true]
      exact ⟨row, List.mem_append_right t (by simp), by simp⟩
    rw [List.map_append]
    rw [Bool.not_eq_true, List.any_eq_false] at h
    have hmap : t.map (fun x => if x.id = row.id then row else x) = t.map id :=
      List.map_congr_left (fun x hx => by
        have := h x hx
        simp only [decide_eq_true_eq] at this
        rw [if_neg this]; rfl)
    rw [hmap, List.map_id]
    simp

lemma processProductMessage_idem (p : Payload) (t : List ProductRow) :
    processProductMessage (some p) (processProductMessage (some p) t)
      = processProductMessage (some p) t := by
  simp only [processProductMessage]
  by_cases h1 : p.op = "c" ∨ p.op = "u" ∨ p.op = "r"
  · rw [if_pos h1]
    cases p.after with
    | none => rw [if_pos h1]
    | some a => rw [if_pos h1]; exact upsertProduct_idem t (rowOfSnapshot a)
  · rw [if_neg h1]
    by_cases h2 : p.op = "d"
    · rw [if_pos h2]
      cases p.before with
      | none => rw [if_neg h1, if_pos h2]
      | some b =>
        rw [if_neg h1, if_pos h2]
        simp only [deleteProduct]
        rw [List.filter_filter]
        simp
    · rw [if_neg h2, if_neg h1, if_neg h2]

/-- C5: a change event with operation create (`c`), update (`u`) or
snapshot-read (`r`) performs an unconditional upsert keyed by the primary
id: applying a create for an id absent from the replica and then an
update for the same id leaves exactly one row for that id, carrying the
update's values; and applying any one identical message twice leaves the
replica exactly as applying it once. -/
theorem upsert_event_semantics (t : List ProductRow) (a₁ a₂ : Snapshot)
    (hid : a₁.id = a₂.id) (habsent : ∀ x ∈ t, x.id ≠ a₂.id) :
    ((processProductMessage (some ⟨"u", none, some a₂⟩)
        (processProductMessage (some ⟨"c", none, some a₁⟩) t)).filter
          (fun x => x.id = a₂.id) = [rowOfSnapshot a₂])
    ∧ (∀ (p : Payload) (u : List ProductRow),
        processProductMessage (some p) (processProductMessage (some p) u)
          = processProductMessage (some p) u) := by
  refine ⟨?_, fun p u => processProductMessage_idem p u⟩
  have hrow₁ : (rowOfSnapshot a₁).id = a₂.id := by rw [rowOfSnapshot_id, hid]
  have step1 : processProductMessage (some ⟨"c", none, some a₁⟩) t
      = upsertProduct t (rowOfSnapshot a₁) := rfl
  have step2 : processProductMessage (some ⟨"u", none, some a₂⟩)
      (upsertProduct t (rowOfSnapshot a₁))
      = upsertProduct (upsertProduct t (rowOfSnapshot a₁)) (rowOfSnapshot a₂) := rfl
  rw [step1, step2]
  have h₁ : upsertProduct t (rowOfSnapshot a₁) = t ++ [rowOfSnapshot a₁] := by
    have hany : t.any (fun x => x.id = (rowOfSnapshot a₁).id) = false := by
      rw [List.any_eq_false]
      intro x hx
      simp only [decide_eq_true_eq, hrow₁]
      exact habsent x hx
    rw [upsertProduct, if_neg (by simp [hany])]
  have h₂ : upsertProduct (t ++ [rowOfSnapshot a₁]) (rowOfSnapshot a₂)
      = t ++ [rowOfSnapshot a₂] := by
    rw [upsertProduct, if_pos ?hany₂]
    case hany₂ =>
      rw [List.any_eq_true]
      refine ⟨rowOfSnapshot a₁, List.mem_append_right t (by simp), ?_⟩
      simp [hrow₁, rowOfSnapshot_id]
    rw [List.map_append]
    have hmapt : t.map
        (fun x => if x.id = (rowOfSnapshot a₂).id then rowOfSnapshot a₂ else x)
          = t.map id :=
      List.map_congr_left (fun x hx => by
        rw [rowOfSnapshot_id, if_neg (habsent x hx)]; rfl)
    rw [hmapt, List.map_id]
    simp [hrow₁, rowOfSnapshot_id]
  rw [h₁, h₂, List.filter_append]
  have hfiltert : t.filter (fun x => x.id = a₂.id) = [] := by
    rw [List.filter_eq_nil_iff]
    intro x hx
    simp [habsent x hx]
  have hfilter₁ : [rowOfSnapshot a₂].filter (fun x => x.id = a₂.id)
      = [rowOfSnapshot a₂] := by
    simp [List.filter, rowOfSnapshot_id]
  rw [hfiltert, hfilter₁, List.nil_append]

/-- Witness for C5: create id 7 into an empty replica, then update id 7;
exactly one id-7 row remains, carrying the update's values, and the
duplicated message leaves the table unchanged. -/
theorem upsert_event_semantics_witness :
    ((processProductMessage
        (some ⟨"u", none, some ⟨7, some "widget v2", none, .num 6, some 30, none, none⟩⟩)
        (processProductMessage
          (some ⟨"c", none, some ⟨7, some "widget", none, .num 5, some 20, none, none⟩⟩)
          [])).filter (fun x => x.id = 7)
      = [rowOfSnapshot ⟨7, some "widget v2", none, .num 6, some 30, none, none⟩])
    ∧ processProductMessage
        (some ⟨"c", none, some ⟨7, some "widget", none, .num 5, some 20, none, none⟩⟩)
        (processProductMessage
          (some ⟨"c", none, some ⟨7, some "widget", none, .num 5, some 20, none, none⟩⟩)
          [])
      = processProductMessage
          (some ⟨"c", none, some ⟨7, some "widget", none, .num 5, some 20, none, none⟩⟩)
          [] := by
  have h := upsert_event_semantics []
    ⟨7, some "widget", none, .num 5, some 20, none, none⟩
    ⟨7, some "widget v2", none, .num 6, some 30, none, none⟩
    rfl (by intro x hx; cases hx)
  exact ⟨h.1, h.2 _ []⟩

/-- C9: a delete event removes exactly the rows whose id matches the
`before` snapshot's id; when no row matches the replica is returned
unchanged (no error, no row created), and when exactly one row matches,
precisely that row is removed. -/
theorem delete_event_semantics (t : List ProductRow) (b : Snapshot)
    (aft : Option Snapshot) :
    (processProductMessage (some ⟨"d", some b, aft⟩) t
        = t.filter (fun x => x.id ≠ b.id))
    ∧ ((∀ x ∈ t, x.id ≠ b.id)
        → processProductMessage (some ⟨"d", some b, aft⟩) t = t)
    ∧ (∀ (pre post : List ProductRow) (row : ProductRow),
        t = pre ++ row :: post → row.id = b.id →
        (∀ x ∈ pre, x.id ≠ b.id) → (∀ x ∈ post, x.id ≠ b.id) →
        processProductMessage (some ⟨"d", some b, aft⟩) t = pre ++ post) := by
  have hdel : processProductMessage (some ⟨"d", some b, aft⟩) t
      = t.filter (fun x => x.id ≠ b.id) := rfl
  refine ⟨hdel, ?_, ?_⟩
  · intro habsent
    rw [hdel]
    rw [List.filter_eq_self]
    intro x hx
    simp [habsent x hx]
  · intro pre post row hsplit hrowid hpre hpost
    subst hsplit
    rw [hdel, List.filter_append, List.filter_cons]
    rw [if_neg (by simp [hrowid])]
    have hpre' : pre.filter (fun x => x.id ≠ b.id) = pre := by
      rw [List.filter_eq_self]; intro x hx; simp [hpre x hx]
    have hpost' : post.filter (fun x => x.id ≠ b.id) = post := by
      rw [List.filter_eq_self]; intro x hx; simp [hpost x hx]
    rw [hpre', hpost']

/-- Witness for C9: deleting id 7 from a replica that only holds id 1
leaves the replica unchanged; deleting id 1 removes exactly that row. -/
theorem delete_event_semantics_witness :
    processProductMessage
        (some ⟨"d", some ⟨7, none, none, .null, none, none, none⟩, none⟩)
        [rowOfSnapshot ⟨1, some "keeper", none, .num 3, some 40, none, none⟩]
      = [rowOfSnapshot ⟨1, some "keeper", none, .num 3, some 40, none, none⟩]
    ∧ processProductMessage
        (some ⟨"d", some ⟨1, none, none, .null, none, none, none⟩, none⟩)
        [rowOfSnapshot ⟨1, some "keeper", none, .num 3, some 40, none, none⟩]
      = [] := by
  constructor
  · exact (delete_event_semantics
      [rowOfSnapshot ⟨1, some "keeper", none, .num 3, some 40, none, none⟩]
      ⟨7, none, none, .null, none, none, none⟩ none).2.1
      (by intro x hx; rw [List.mem_singleton] at hx; subst hx; rw [rowOfSnapshot_id]; decide)
  · exact (delete_event_semantics
      [rowOfSnapshot ⟨1, some "keeper", none, .num 3, some 40, none, none⟩]
      ⟨1, none, none, .null, none, none, none⟩ none).2.2 [] []
      (rowOfSnapshot ⟨1, some "keeper", none, .num 3, some 40, none, none⟩)
      rfl (rowOfSnapshot_id _) (by intro x hx; cases hx) (by intro x hx; cases hx)

/-! ## Claims C6 and C10 — the decimal codec -/

lemma twosComplement_spec (bs : List ℕ) (scale : ℕ) :
    (twosComplement bs : ℚ) / 10 ^ scale = specBase64Value bs scale := by
  cases bs with
  | nil => simp [twosComplement, bytesBE, specBase64Value]
  | cons b tl => simp [twosComplement, bytesBE, specBase64Value]

/-- C6: on a string that does not parse as a decimal, `decodeDecimal`
base64-decodes it, accumulates a big-endian arbitrary-precision integer,
subtracts `2^(8×byteLength)` when the first byte's high bit is set, and
divides by `10^scale`; any failure yields 0 rather than an exception; in
particular `decode("12.34", 2) = 12.34` and decoding the base64 encoding
of −100 as a 2-byte two's-complement integer (`"/5w="`) with scale 2
gives −1.00. -/
theorem decodeDecimal_base64_semantics :
    (∀ (s : String) (scale : ℕ) (bs : List ℕ),
        jsParseFloat s = none → base64Decode s = some bs →
        decodeDecimal (.str s) scale = specBase64Value bs scale)
    ∧ (∀ (s : String) (scale : ℕ),
        jsParseFloat s = none → base64Decode s = none →
        decodeDecimal (.str s) scale = 0)
    ∧ decodeDecimal (.str "12.34") 2 = 12.34
    ∧ base64Decode "/5w=" = some [255, 156]
    ∧ twosComplement [255, 156] = -100
    ∧ decodeDecimal (.str "/5w=") 2 = -1.00 := by
  refine ⟨?_, ?_, ?_, rfl, rfl, ?_⟩
  · intro s scale bs hp hb
    by_cases hs : s = ""
    · subst hs
      rw [show base64Decode "" = some ([] : List ℕ) from rfl] at hb
      rw [Option.some.injEq] at hb
      subst hb
      simp [decodeDecimal, specBase64Value]
    · simp only [decodeDecimal, if_neg hs, hp, hb]
      exact twosComplement_spec bs scale
  · intro s scale hp hb
    by_cases hs : s = ""
    · subst hs; rfl
    · simp only [decodeDecimal, if_neg hs, hp, hb]
  · simp [decodeDecimal, jsParseFloat,
      show jsParseFloatParts "12.34" = some ⟨false, 12, 34, 2, 0⟩ from rfl,
      floatPartsVal]
    norm_num
  · simp only [decodeDecimal,
      show jsParseFloat "/5w=" = (none : Option ℚ) from rfl,
      show base64Decode "/5w=" = some [255, 156] from rfl,
      show twosComplement [255, 156] = -100 from rfl]
    norm_num
    decide

/-- Witness for C6 at the −100 example: `"/5w="` does not parse as a
decimal, decodes to the bytes `[0xFF, 0x9C]`, and `decodeDecimal` equals
the spec's accumulate/subtract/divide formula on those bytes. -/
theorem decodeDecimal_base64_semantics_witness :
    jsParseFloat "/5w=" = none
    ∧ base64Decode "/5w=" = some [255, 156]
    ∧ decodeDecimal (.str "/5w=") 2 = specBase64Value [255, 156] 2 :=
  ⟨rfl, rfl, decodeDecimal_base64_semantics.1 "/5w=" 2 [255, 156] rfl rfl⟩

/-- C10: whenever the prefix of a string parses as a decimal number,
`decodeDecimal` returns that parsed value, never reaches the base64
branch, and ignores the scale; in particular the base64 payload `"9w=="`
(one byte, 0xF7, two's-complement value −9) is returned as its numeric
prefix 9 at every scale rather than as the two's-complement decode
−0.09. -/
theorem decodeDecimal_parseFloat_first :
    (∀ (s : String) (q : ℚ) (scale : ℕ),
        jsParseFloat s = some q → decodeDecimal (.str s) scale = q)
    ∧ jsParseFloat "9w==" = some 9
    ∧ decodeDecimal (.str "9w==") 2 = 9
    ∧ decodeDecimal (.str "9w==") 5 = 9
    ∧ base64Decode "9w==" = some [247]
    ∧ (twosComplement [247] : ℚ) / 10 ^ 2 = -0.09 := by
  have hparse : ∀ (s : String) (q : ℚ) (scale : ℕ),
      jsParseFloat s = some q → decodeDecimal (.str s) scale = q := by
    intro s q scale hp
    by_cases hs : s = ""
    · subst hs
      rw [show jsParseFloat "" = (none : Option ℚ) from rfl] at hp
      cases hp
    · simp only [decodeDecimal, if_neg hs, hp]
  have h9 : jsParseFloat "9w==" = some 9 := by
    simp [jsParseFloat,
      show jsParseFloatParts "9w==" = some ⟨false, 9, 0, 0, 0⟩ from rfl,
      floatPartsVal]
  refine ⟨hparse, h9, hparse _ _ _ h9, hparse _ _ _ h9, rfl, ?_⟩
  rw [show twosComplement [247] = -9 from rfl]
  norm_num

/-- Witness for C10: the parse-first property applied at `"9w=="` with
scale 7. -/
theorem decodeDecimal_parseFloat_first_witness :
    jsParseFloat "9w==" = some 9 ∧ decodeDecimal (.str "9w==") 7 = 9 := by
  have h9 : jsParseFloat "9w==" = some 9 := by
    simp [jsParseFloat,
      show jsParseFloatParts "9w==" = some ⟨false, 9, 0, 0, 0⟩ from rfl,
      floatPartsVal]
  exact ⟨h9, decodeDecimal_parseFloat_first.1 "9w==" 9 7 h9⟩

end ShadowMesh
